import Mathlib

/-
Verification of `hast-util-to-parse5` (src/lib/index.js): a shallow embedding
of the hast → parse5 tree converter, together with proofs about it.

Modelling conventions:
* JS objects become inductive types; absent/`undefined` fields become `Option`.
* The recursive children lists use explicit mutual inductives (`NodeList`,
  `P5List`, `OptNode`, `OptP5`) so that all recursion is structural and the
  kernel can evaluate the converter on concrete inputs.
* JS reference identity for produced nodes is modelled by the node's address
  in the produced tree: a `Path` of steps (`child i` into `childNodes`,
  `content` into a template's content fragment).  The `parentNode` pointer a
  produced child receives in `all` is modelled as the address of the parent.
* The converter functions can mutate their arguments through references in
  JS.  Each embedded converter therefore returns the source node it was given
  alongside its result (`oneSt`, `allSt`, `fragmentSt`); that the returned
  source tree always equals the input is then a provable frame property
  rather than a baked-in assumption.  `one`/`all`/`fragment`/`toParse5` are
  the plain projections to the conversion result.
* Thrown JS exceptions become `Except.error`; a JS function returning
  `undefined` where a node is expected becomes `Except.ok Option.none`.
-/

namespace ToP5

/-- A JS property value as allowed by hast `properties`
(boolean, string or number; numbers are modelled as integers). -/
inductive JsVal where
  | bool (b : Bool)
  | str (s : String)
  | num (n : Int)
deriving DecidableEq

/-- A unist point: `{line, column, offset}`. -/
structure Point where
  line : Int
  column : Int
  offset : Int
deriving DecidableEq

/-- A unist position; `start`/`end` may each be missing (the code checks
`position.start && position.end`). -/
structure Position where
  start : Option Point
  end_ : Option Point
deriving DecidableEq

/-- The `data` object of a hast root; only `quirksMode` is read. -/
structure RootData where
  quirksMode : Option Bool
deriving DecidableEq

/-- One step of an address into the produced parse5 tree:
`child i` descends into `childNodes[i]`, `content` into a template
element's `content` fragment. -/
inductive Step where
  | child (i : Nat)
  | content
deriving DecidableEq

/-- Address of a produced node in the produced tree (models JS object
identity of produced nodes, in particular the `parentNode` pointer). -/
abbrev Path := List Step

/-- Modelled from the spec: the attribute-information resolver's metadata
for one attribute: `{is-boolean, space}` (`property-information`'s `Info`;
only the `boolean` and `space` fields are read by the code). -/
structure Info where
  boolean : Bool
  space : Option String
deriving DecidableEq

/-- Modelled from the spec: a schema: one of the two fixed attribute
lookup tables (HTML, SVG), with its `space` tag. -/
structure Schema where
  space : String
  infos : List (String × Info)
deriving DecidableEq

/-- Modelled from the spec: the attribute-information resolver
(`property-information`'s `find`): look the name up in the schema's table;
an unknown name resolves to plain metadata (not boolean, no space). -/
def find (schema : Schema) (key : String) : Info :=
  (List.lookup key schema.infos).getD ⟨false, Option.none⟩

def htmlURI : String := "http://www.w3.org/1999/xhtml"
def svgURI : String := "http://www.w3.org/2000/svg"
def mathmlURI : String := "http://www.w3.org/1998/Math/MathML"
def xlinkURI : String := "http://www.w3.org/1999/xlink"
def xmlURI : String := "http://www.w3.org/XML/1998/namespace"
def xmlnsURI : String := "http://www.w3.org/2000/xmlns/"

/-- Modelled from the spec: the namespace-URI table (`web-namespaces`):
short namespace key to full URI; unknown keys give `undefined`. -/
def nsMap (space : String) : Option String :=
  List.lookup space
    [("html", htmlURI), ("mathml", mathmlURI), ("svg", svgURI),
     ("xlink", xlinkURI), ("xml", xmlURI), ("xmlns", xmlnsURI)]

/-- Modelled from the spec: the HTML schema table (subset of
`property-information`'s `html` schema sufficient for the claims:
`disabled` and `hidden` are boolean HTML attributes; `id` and `title` are
plain ones; the xlink/xml/xmlns attributes carry foreign spaces). -/
def html : Schema :=
  ⟨"html",
   [("disabled", ⟨true, Option.some "html"⟩),
    ("hidden", ⟨true, Option.some "html"⟩),
    ("id", ⟨false, Option.some "html"⟩),
    ("title", ⟨false, Option.some "html"⟩),
    ("xmlns", ⟨false, Option.some "xmlns"⟩),
    ("xmlns:xlink", ⟨false, Option.some "xmlns"⟩),
    ("xlink:href", ⟨false, Option.some "xlink"⟩),
    ("xml:lang", ⟨false, Option.some "xml"⟩),
    ("xml:space", ⟨false, Option.some "xml"⟩)]⟩

/-- Modelled from the spec: the SVG schema table (subset of
`property-information`'s `svg` schema: SVG attributes such as `viewBox`
and `id`; the HTML-only boolean attributes `disabled`/`hidden` are not in
it; the xlink/xml/xmlns attributes carry the same foreign spaces). -/
def svg : Schema :=
  ⟨"svg",
   [("viewBox", ⟨false, Option.some "svg"⟩),
    ("id", ⟨false, Option.some "svg"⟩),
    ("xmlns", ⟨false, Option.some "xmlns"⟩),
    ("xmlns:xlink", ⟨false, Option.some "xmlns"⟩),
    ("xlink:href", ⟨false, Option.some "xlink"⟩),
    ("xml:lang", ⟨false, Option.some "xml"⟩),
    ("xml:space", ⟨false, Option.some "xml"⟩)]⟩

mutual
/-- A hast node (the source tree).  `other` stands for a node whose `type`
is none of the five recognized kinds (its string is that `type`). -/
inductive Node where
  | root (data : Option RootData) (children : NodeList) (position : Option Position)
  | element (tagName : String) (properties : List (String × JsVal))
      (children : NodeList) (content : OptNode) (position : Option Position)
  | text (value : String) (position : Option Position)
  | comment (value : String) (position : Option Position)
  | doctype (position : Option Position)
  | other (type_ : String) (position : Option Position)

/-- A list of hast nodes (explicit so recursion over it is structural). -/
inductive NodeList where
  | nil
  | cons (head : Node) (tail : NodeList)

/-- An optional hast node (an element's `content` subtree). -/
inductive OptNode where
  | none
  | some (node : Node)
end

/-- The `sourceCodeLocation` record produced by `patch`. -/
structure SourceCodeLocation where
  startLine : Int
  startCol : Int
  startOffset : Int
  endLine : Int
  endCol : Int
  endOffset : Int
deriving DecidableEq

/-- A parse5 attribute.  `pfx` models parse5's `prefix` field and
`namespace_` its `namespace` field; `Option.none` means the field is
absent from the object. -/
structure Attr where
  name : String
  value : String
  pfx : Option String
  namespace_ : Option String
deriving DecidableEq

mutual
/-- A parse5 node (the produced tree).  `parentNode` is the address of the
parent node in the produced tree (`Option.none` = `undefined`/absent). -/
inductive P5 where
  | document (mode : String) (childNodes : P5List) (parentNode : Option Path)
      (scl : Option SourceCodeLocation)
  | documentFragment (childNodes : P5List) (parentNode : Option Path)
      (scl : Option SourceCodeLocation)
  | element (nodeName : String) (tagName : String) (attrs : List Attr)
      (namespaceURI : Option String) (childNodes : P5List) (content : OptP5)
      (parentNode : Option Path) (scl : Option SourceCodeLocation)
  | text (value : String) (parentNode : Option Path) (scl : Option SourceCodeLocation)
  | comment (data : String) (parentNode : Option Path) (scl : Option SourceCodeLocation)
  | doctype (name : String) (publicId : String) (systemId : String)
      (parentNode : Option Path) (scl : Option SourceCodeLocation)

/-- A list of parse5 nodes. -/
inductive P5List where
  | nil
  | cons (head : P5) (tail : P5List)

/-- An optional parse5 node (a template element's `content`). -/
inductive OptP5 where
  | none
  | some (node : P5)
end

/-- An exception thrown during conversion (JS `TypeError`). -/
inductive ConvErr where
  | typeError (msg : String)
deriving DecidableEq

/-- Children of a hast node as read by JS `node.children`
(`undefined` for childless kinds, which `all` treats as empty). -/
def childrenOf : Node → NodeList
  | Node.root _ cs _ => cs
  | Node.element _ _ cs _ _ => cs
  | Node.text _ _ => NodeList.nil
  | Node.comment _ _ => NodeList.nil
  | Node.doctype _ => NodeList.nil
  | Node.other _ _ => NodeList.nil

/-- The `position` field of a hast node. -/
def positionOf : Node → Option Position
  | Node.root _ _ p => p
  | Node.element _ _ _ _ p => p
  | Node.text _ p => p
  | Node.comment _ p => p
  | Node.doctype p => p
  | Node.other _ p => p

/-- Set the `scl` (`sourceCodeLocation`) field of a produced node. -/
def setScl : P5 → Option SourceCodeLocation → P5
  | P5.document m cs par _, l => P5.document m cs par l
  | P5.documentFragment cs par _, l => P5.documentFragment cs par l
  | P5.element nn tn ats ns cs ct par _, l => P5.element nn tn ats ns cs ct par l
  | P5.text v par _, l => P5.text v par l
  | P5.comment d par _, l => P5.comment d par l
  | P5.doctype n p s par _, l => P5.doctype n p s par l

/-- Set the `parentNode` field of a produced node (the assignment
`child.parentNode = p5` in `all`; the parent is given by its address). -/
def setParent : P5 → Path → P5
  | P5.document m cs _ l, q => P5.document m cs (Option.some q) l
  | P5.documentFragment cs _ l, q => P5.documentFragment cs (Option.some q) l
  | P5.element nn tn ats ns cs ct _ l, q => P5.element nn tn ats ns cs ct (Option.some q) l
  | P5.text v _ l, q => P5.text v (Option.some q) l
  | P5.comment d _ l, q => P5.comment d (Option.some q) l
  | P5.doctype n p s _ l, q => P5.doctype n p s (Option.some q) l

/-- Set the `childNodes` field of a produced node
(the assignment `p5.childNodes = all(...)`; non-parent kinds unchanged). -/
def setChildNodes : P5 → P5List → P5
  | P5.document m _ par l, cs => P5.document m cs par l
  | P5.documentFragment _ par l, cs => P5.documentFragment cs par l
  | P5.element nn tn ats ns _ ct par l, cs => P5.element nn tn ats ns cs ct par l
  | P5.text v par l, _ => P5.text v par l
  | P5.comment d par l, _ => P5.comment d par l
  | P5.doctype n p s par l, _ => P5.doctype n p s par l

/-- Set the `content` field of a produced node
(the assignment `p5.content = fragment(...)`; non-element kinds unchanged). -/
def setContent : P5 → OptP5 → P5
  | P5.element nn tn ats ns cs _ par l, ct => P5.element nn tn ats ns cs ct par l
  | P5.document m cs par l, _ => P5.document m cs par l
  | P5.documentFragment cs par l, _ => P5.documentFragment cs par l
  | P5.text v par l, _ => P5.text v par l
  | P5.comment d par l, _ => P5.comment d par l
  | P5.doctype n p s par l, _ => P5.doctype n p s par l

/-- The `parentNode` field of a produced node. -/
def parentOf : P5 → Option Path
  | P5.document _ _ par _ => par
  | P5.documentFragment _ par _ => par
  | P5.element _ _ _ _ _ _ par _ => par
  | P5.text _ par _ => par
  | P5.comment _ par _ => par
  | P5.doctype _ _ _ par _ => par

/-- The `sourceCodeLocation` field of a produced node. -/
def sclOf : P5 → Option SourceCodeLocation
  | P5.document _ _ _ l => l
  | P5.documentFragment _ _ l => l
  | P5.element _ _ _ _ _ _ _ l => l
  | P5.text _ _ l => l
  | P5.comment _ _ l => l
  | P5.doctype _ _ _ _ l => l

/-- The `childNodes` of a produced node (empty for childless kinds). -/
def childNodesOf : P5 → P5List
  | P5.document _ cs _ _ => cs
  | P5.documentFragment cs _ _ => cs
  | P5.element _ _ _ _ cs _ _ _ => cs
  | P5.text _ _ _ => P5List.nil
  | P5.comment _ _ _ => P5List.nil
  | P5.doctype _ _ _ _ _ => P5List.nil

/-- The `content` field of a produced node. -/
def contentOf : P5 → OptP5
  | P5.element _ _ _ _ _ ct _ _ => ct
  | _ => OptP5.none

/-- The `attrs` of a produced node (only elements have attrs). -/
def attrsOf : P5 → Option (List Attr)
  | P5.element _ _ ats _ _ _ _ _ => Option.some ats
  | _ => Option.none

/-- The `namespaceURI` of a produced node (only elements have one). -/
def namespaceURIOf : P5 → Option String
  | P5.element _ _ _ ns _ _ _ _ => ns
  | _ => Option.none

/-- `patch` (src/lib/index.js:249): copy the six location fields when the
position and both its `start` and `end` are present; otherwise leave the
produced node untouched.  Only `node.position` is read, so the embedding
takes that field directly. -/
def patch (position : Option Position) (p5 : P5) : P5 :=
  match position with
  | Option.some pos =>
    match pos.start, pos.end_ with
    | Option.some st, Option.some en =>
      setScl p5 (Option.some ⟨st.line, st.column, st.offset, en.line, en.column, en.offset⟩)
    | _, _ => p5
  | Option.none => p5

/-- JS truthiness of a property value (`!attrs[key]`):
`false`, `0` and the empty string are falsy. -/
def jsFalsy : JsVal → Bool
  | JsVal.bool b => !b
  | JsVal.str s => decide (s = "")
  | JsVal.num n => decide (n = 0)

/-- JS `String(value)` for a property value. -/
def jsString : JsVal → String
  | JsVal.bool b => if b then "true" else "false"
  | JsVal.str s => s
  | JsVal.num n => toString n

/-- The attribute value emitted by `h`:
empty string for boolean `true`, otherwise `String(value)`. -/
def attrValue (v : JsVal) : String :=
  if v = JsVal.bool true then "" else jsString v

/-- Index of the first `:` in a string (JS `key.indexOf(':')`;
`Option.none` for a negative result). -/
def colonIdx (s : String) : Option Nat :=
  s.toList.findIdx? (fun c => c = ':')

/-- JS `key.slice(0, i)`. -/
def strTake (s : String) (i : Nat) : String :=
  (s.toList.take i).asString

/-- JS `key.slice(i)`. -/
def strDrop (s : String) (i : Nat) : String :=
  (s.toList.drop i).asString

/-- The foreign-namespace adjustment in `h` (src/lib/index.js:171-182):
when the attribute's space is set and is neither `html` nor `svg`, split
the name at the first colon (or use an empty prefix when there is none)
and record the namespace URI. -/
def foreignAdjust (space : Option String) (key : String) (value : String) : Attr :=
  match space with
  | Option.some sp =>
    if sp ≠ "html" ∧ sp ≠ "svg" then
      match colonIdx key with
      | Option.none => ⟨key, value, Option.some "", nsMap sp⟩
      | Option.some i => ⟨strDrop key (i + 1), value, Option.some (strTake key i), nsMap sp⟩
    else ⟨key, value, Option.none, Option.none⟩
  | Option.none => ⟨key, value, Option.none, Option.none⟩

/-- One iteration of the attribute loop in `h` (src/lib/index.js:154-185):
skip `false` values, skip boolean-classified falsy values, otherwise emit
the (possibly namespace-adjusted) attribute. -/
def attrOf (schema : Schema) (key : String) (v : JsVal) : Option Attr :=
  if v = JsVal.bool false then Option.none
  else if (find schema key).boolean && jsFalsy v then Option.none
  else Option.some (foreignAdjust (find schema key).space key (attrValue v))

/-- The whole attribute loop of `h`: properties in order, each through
`attrOf`.  The flattened property mapping handed to `h` is the element's
`properties` (spec §6: the node-builder helper's contract is
`(name, attrs) → base element object`). -/
def buildAttrs (schema : Schema) (props : List (String × JsVal)) : List Attr :=
  props.filterMap (fun kv => attrOf schema kv.1 kv.2)

/-- The schema switch in `h` (src/lib/index.js:187): after the attribute
loop, if the schema is HTML and the tag is `svg`, use the SVG schema for
the rest of this element's conversion. -/
def hSwitch (schema : Schema) (tagName : String) : Schema :=
  if schema.space = "html" ∧ tagName = "svg" then svg else schema

/-- The `mode` of a produced document:
`(node.data || {}).quirksMode ? 'quirks' : 'no-quirks'`. -/
def docMode (data : Option RootData) : String :=
  match data with
  | Option.some d => match d.quirksMode with
    | Option.some true => "quirks"
    | _ => "no-quirks"
  | Option.none => "no-quirks"

mutual
/-- The dispatcher `one = zwitch('type', {handlers})` together with the
handlers `root`/`element`/`text`/`comment`/`doctype` (inlined as the match
branches).  `path` is the address this node will occupy in the produced
tree.  Returns the source node as JS leaves it (frame modelling) paired
with the result; `Except.ok Option.none` models zwitch returning
`undefined` for a node type without a handler. -/
def oneSt (node : Node) (schema : Schema) (path : Path) :
    Node × Except ConvErr (Option P5) :=
  match node with
  | Node.root data children pos =>
    match allSt children 0 path schema with
    | (children', Except.error e) => (Node.root data children' pos, Except.error e)
    | (children', Except.ok cn) =>
      (Node.root data children' pos,
       Except.ok (Option.some (patch pos
         (setChildNodes (P5.document (docMode data) P5List.nil Option.none Option.none) cn))))
  | Node.element tagName props children content pos =>
    match allSt children 0 path (hSwitch schema tagName) with
    | (children', Except.error e) =>
      (Node.element tagName props children' content pos, Except.error e)
    | (children', Except.ok cn) =>
      if tagName = "template" then
        match templateSt content (path ++ [Step.content]) (hSwitch schema tagName) with
        | (content', Except.error e) =>
          (Node.element tagName props children' content' pos, Except.error e)
        | (content', Except.ok fr) =>
          (Node.element tagName props children' content' pos,
           Except.ok (Option.some (setContent
             (setChildNodes
               (patch pos (P5.element tagName tagName (buildAttrs schema props)
                 (nsMap (hSwitch schema tagName).space) P5List.nil OptP5.none
                 Option.none Option.none)) cn)
             (OptP5.some fr))))
      else
        (Node.element tagName props children' content pos,
         Except.ok (Option.some (setChildNodes
           (patch pos (P5.element tagName tagName (buildAttrs schema props)
             (nsMap (hSwitch schema tagName).space) P5List.nil OptP5.none
             Option.none Option.none)) cn)))
  | Node.text v pos =>
    (Node.text v pos,
     Except.ok (Option.some (patch pos (P5.text v Option.none Option.none))))
  | Node.comment v pos =>
    (Node.comment v pos,
     Except.ok (Option.some (patch pos (P5.comment v Option.none Option.none))))
  | Node.doctype pos =>
    (Node.doctype pos,
     Except.ok (Option.some (patch pos (P5.doctype "html" "" "" Option.none Option.none))))
  | Node.other ty pos => (Node.other ty pos, Except.ok Option.none)

/-- `all` (src/lib/index.js:220): convert the children in order, assign
each produced child's `parentNode` (this is the sole assignment site of
`parentNode`), collect the results.  `index` is the ordinal of the first
child (used only to address the produced children).  Converting a child to
`undefined` makes the `child.parentNode = p5` assignment throw. -/
def allSt (children : NodeList) (index : Nat) (parentPath : Path) (schema : Schema) :
    NodeList × Except ConvErr P5List :=
  match children with
  | NodeList.nil => (NodeList.nil, Except.ok P5List.nil)
  | NodeList.cons c cs =>
    match oneSt c schema (parentPath ++ [Step.child index]) with
    | (c', Except.error e) => (NodeList.cons c' cs, Except.error e)
    | (c', Except.ok Option.none) =>
      (NodeList.cons c' cs,
       Except.error (ConvErr.typeError "Cannot set properties of undefined (setting 'parentNode')"))
    | (c', Except.ok (Option.some child)) =>
      match allSt cs (index + 1) parentPath schema with
      | (cs', Except.error e) => (NodeList.cons c' cs', Except.error e)
      | (cs', Except.ok rest) =>
        (NodeList.cons c' cs', Except.ok (P5List.cons (setParent child parentPath) rest))

/-- The template step `p5.content = fragment(node.content, schema)` of `h`
(src/lib/index.js:208): when `node.content` is absent, `fragment` reads
`undefined.children` and throws; otherwise it converts the content root as
a fragment.  Returns the content subtree as JS leaves it paired with the
result. -/
def templateSt (content : OptNode) (contentPath : Path) (schema : Schema) :
    OptNode × Except ConvErr P5 :=
  match content with
  | OptNode.none =>
    (OptNode.none,
     Except.error (ConvErr.typeError "Cannot read properties of undefined (reading 'children')"))
  | OptNode.some c =>
    match fragmentSt c contentPath schema with
    | (c', r) => (OptNode.some c', r)

/-- `fragment` (src/lib/index.js:76): produce a document-fragment from a
node's children (JS reads `node.children`, `undefined` — treated as empty
by `all` — for childless kinds), then patch its location. -/
def fragmentSt (node : Node) (selfPath : Path) (schema : Schema) :
    Node × Except ConvErr P5 :=
  match node with
  | Node.root d children pos =>
    match allSt children 0 selfPath schema with
    | (children', Except.error e) => (Node.root d children' pos, Except.error e)
    | (children', Except.ok cn) =>
      (Node.root d children' pos,
       Except.ok (patch pos (setChildNodes (P5.documentFragment P5List.nil Option.none Option.none) cn)))
  | Node.element t p children c pos =>
    match allSt children 0 selfPath schema with
    | (children', Except.error e) => (Node.element t p children' c pos, Except.error e)
    | (children', Except.ok cn) =>
      (Node.element t p children' c pos,
       Except.ok (patch pos (setChildNodes (P5.documentFragment P5List.nil Option.none Option.none) cn)))
  | Node.text v pos =>
    (Node.text v pos,
     Except.ok (patch pos (P5.documentFragment P5List.nil Option.none Option.none)))
  | Node.comment v pos =>
    (Node.comment v pos,
     Except.ok (patch pos (P5.documentFragment P5List.nil Option.none Option.none)))
  | Node.doctype pos =>
    (Node.doctype pos,
     Except.ok (patch pos (P5.documentFragment P5List.nil Option.none Option.none)))
  | Node.other ty pos =>
    (Node.other ty pos,
     Except.ok (patch pos (P5.documentFragment P5List.nil Option.none Option.none)))
end

/-- The conversion result of the dispatcher. -/
def one (node : Node) (schema : Schema) (path : Path) : Except ConvErr (Option P5) :=
  (oneSt node schema path).2

/-- The conversion result of the child-list transformer. -/
def all (children : NodeList) (index : Nat) (parentPath : Path) (schema : Schema) :
    Except ConvErr P5List :=
  (allSt children index parentPath schema).2

/-- The conversion result of the fragment converter. -/
def fragment (node : Node) (selfPath : Path) (schema : Schema) : Except ConvErr P5 :=
  (fragmentSt node selfPath schema).2

/-- `toParse5(tree, space)` (src/lib/index.js:49): dispatch with the SVG
schema when `space === 'svg'`, else the HTML schema. -/
def toParse5 (tree : Node) (space : Option String) : Except ConvErr (Option P5) :=
  (oneSt tree (if space = Option.some "svg" then svg else html) []).2

/-- Follows the spec's words (§4.7): the `sourceCodeLocation` a produced
node should carry — the six fields copied verbatim when the position and
both its endpoints are present, nothing otherwise. -/
def specLocation : Option Position → Option SourceCodeLocation
  | Option.some pos =>
    match pos.start, pos.end_ with
    | Option.some st, Option.some en =>
      Option.some ⟨st.line, st.column, st.offset, en.line, en.column, en.offset⟩
    | _, _ => Option.none
  | Option.none => Option.none

mutual
/-- The parent-link invariant, checked recursively: a node sitting at
address `self` has `parentNode = expected`; its children, at addresses
`self ++ [child i]`, have `parentNode = some self`; a template's content
fragment, at `self ++ [content]`, has `parentNode` absent (it is not
produced by the child-list transformer). -/
def parentsOk (self : Path) (expected : Option Path) (n : P5) : Bool :=
  match n with
  | P5.document _ cs par _ =>
    decide (par = expected) && parentsOkList self 0 cs
  | P5.documentFragment cs par _ =>
    decide (par = expected) && parentsOkList self 0 cs
  | P5.element _ _ _ _ cs ct par _ =>
    decide (par = expected) && parentsOkList self 0 cs && parentsOkContent self ct
  | P5.text _ par _ => decide (par = expected)
  | P5.comment _ par _ => decide (par = expected)
  | P5.doctype _ _ _ par _ => decide (par = expected)

/-- Parent-link check for a produced element's `content` field: an
attached content fragment sits at `self ++ [content]` with no parent. -/
def parentsOkContent (self : Path) (ct : OptP5) : Bool :=
  match ct with
  | OptP5.none => true
  | OptP5.some f => parentsOk (self ++ [Step.content]) Option.none f

/-- Parent-link check for the children of the node at address `parent`,
the first one sitting at ordinal `i`. -/
def parentsOkList (parent : Path) (i : Nat) (l : P5List) : Bool :=
  match l with
  | P5List.nil => true
  | P5List.cons c cs =>
    parentsOk (parent ++ [Step.child i]) (Option.some parent) c &&
    parentsOkList parent (i + 1) cs
end

mutual
/-- Structural correspondence between a source node and the node produced
for it: matching kind (root↦document, element↦element with the same tag,
text/comment with the same value, doctype↦document-type with the fixed
defaults), children corresponding pointwise in order, and — when the
produced element carries a `content` fragment — the fragment's children
corresponding pointwise to the source `content`'s children. -/
def corr (src : Node) (tgt : P5) : Bool :=
  match src, tgt with
  | Node.root _ cs _, P5.document _ tcs _ _ => corrList cs tcs
  | Node.element tag _ cs cont _, P5.element nn tn _ _ tcs tcont _ _ =>
    decide (nn = tag) && decide (tn = tag) && corrList cs tcs && corrContent cont tcont
  | Node.text v _, P5.text tv _ _ => decide (tv = v)
  | Node.comment v _, P5.comment d _ _ => decide (d = v)
  | Node.doctype _, P5.doctype n p s _ _ =>
    decide (n = "html") && decide (p = "") && decide (s = "")
  | _, _ => false

/-- Pointwise correspondence of a source children sequence with a produced
`childNodes` sequence (same length, same order). -/
def corrList (srcs : NodeList) (tgts : P5List) : Bool :=
  match srcs, tgts with
  | NodeList.nil, P5List.nil => true
  | NodeList.cons c cs, P5List.cons t ts => corr c t && corrList cs ts
  | _, _ => false

/-- Correspondence of a source `content` subtree with a produced element's
`content` field: when a content fragment is attached, its children
correspond to the source content's children. -/
def corrContent (cont : OptNode) (tcont : OptP5) : Bool :=
  match tcont with
  | OptP5.none => true
  | OptP5.some (P5.documentFragment fcs _ _) =>
    (match cont with
     | OptNode.none => false
     | OptNode.some c => corrList (childrenOf c) fcs)
  | OptP5.some _ => false
end

/-- `childNodes[i]` of a produced node list. -/
def pListGet : P5List → Nat → Option P5
  | P5List.nil, _ => Option.none
  | P5List.cons c _, 0 => Option.some c
  | P5List.cons _ cs, n + 1 => pListGet cs n

/-- The produced node at an address, descending through `childNodes` and
`content`. -/
def getAt (p : P5) : Path → Option P5
  | [] => Option.some p
  | Step.child i :: rest =>
    match pListGet (childNodesOf p) i with
    | Option.some c => getAt c rest
    | Option.none => Option.none
  | Step.content :: rest =>
    match contentOf p with
    | OptP5.some c => getAt c rest
    | OptP5.none => Option.none

/-- The `namespaceURI` of the node at an address in a conversion result
(`Option.none` when the conversion failed or the address misses). -/
def nsAtPath (res : Except ConvErr (Option P5)) (path : Path) : Option String :=
  match res with
  | Except.ok (Option.some r) =>
    match getAt r path with
    | Option.some n => namespaceURIOf n
    | Option.none => Option.none
  | _ => Option.none

/-- The source tree `<div><svg><rect/></svg><span></span></div>`:
a `div` with an `svg` child (itself with a `rect` child) followed by a
sibling `span`. -/
def divSvgSpanTree : Node :=
  Node.element "div" []
    (NodeList.cons
      (Node.element "svg" []
        (NodeList.cons (Node.element "rect" [] NodeList.nil OptNode.none Option.none)
          NodeList.nil)
        OptNode.none Option.none)
      (NodeList.cons (Node.element "span" [] NodeList.nil OptNode.none Option.none)
        NodeList.nil))
    OptNode.none Option.none

/-- A source `<template>` element with `children = []` and a `content`
subtree whose children are one text node `"x"`. -/
def templateTree : Node :=
  Node.element "template" [] NodeList.nil
    (OptNode.some (Node.root Option.none
      (NodeList.cons (Node.text "x" Option.none) NodeList.nil) Option.none))
    Option.none

/-- An `svg` element carrying the property `hidden: 0`
(`hidden` is boolean in the HTML schema but unknown to the SVG schema). -/
def svgHiddenTree : Node :=
  Node.element "svg" [("hidden", JsVal.num 0)] NodeList.nil OptNode.none Option.none

/-- An `svg` element with property `hidden: 0` and a `rect` child. -/
def svgRectTree : Node :=
  Node.element "svg" [("hidden", JsVal.num 0)]
    (NodeList.cons (Node.element "rect" [] NodeList.nil OptNode.none Option.none) NodeList.nil)
    OptNode.none Option.none

/-- A root with a text child and an element child. -/
def smallRootTree : Node :=
  Node.root Option.none
    (NodeList.cons (Node.text "a" Option.none)
      (NodeList.cons (Node.element "b" [] NodeList.nil OptNode.none Option.none) NodeList.nil))
    Option.none

/-- The spec's location example: a text node spanning line 1 columns 1-4,
offsets 0-3. -/
def locatedTextTree : Node :=
  Node.text "abc"
    (Option.some ⟨Option.some ⟨1, 1, 0⟩, Option.some ⟨1, 4, 3⟩⟩)

/-
Unfolding equations.  The mutual structural definitions above do not get
automatically generated equation lemmas in this toolchain, but each
per-constructor equation holds definitionally, so we state them by hand.
-/

theorem oneSt_root (d : Option RootData) (cs : NodeList) (pos : Option Position)
    (s : Schema) (p : Path) :
    oneSt (Node.root d cs pos) s p =
    (match allSt cs 0 p s with
    | (children', Except.error e) => (Node.root d children' pos, Except.error e)
    | (children', Except.ok cn) =>
      (Node.root d children' pos,
       Except.ok (Option.some (patch pos
         (setChildNodes (P5.document (docMode d) P5List.nil Option.none Option.none) cn))))) := rfl

theorem oneSt_element (tag : String) (props : List (String × JsVal)) (cs : NodeList)
    (cont : OptNode) (pos : Option Position) (s : Schema) (p : Path) :
    oneSt (Node.element tag props cs cont pos) s p =
    (match allSt cs 0 p (hSwitch s tag) with
    | (children', Except.error e) =>
      (Node.element tag props children' cont pos, Except.error e)
    | (children', Except.ok cn) =>
      if tag = "template" then
        match templateSt cont (p ++ [Step.content]) (hSwitch s tag) with
        | (cont', Except.error e) =>
          (Node.element tag props children' cont' pos, Except.error e)
        | (cont', Except.ok fr) =>
          (Node.element tag props children' cont' pos,
           Except.ok (Option.some (setContent
             (setChildNodes
               (patch pos (P5.element tag tag (buildAttrs s props)
                 (nsMap (hSwitch s tag).space) P5List.nil OptP5.none
                 Option.none Option.none)) cn)
             (OptP5.some fr))))
      else
        (Node.element tag props children' cont pos,
         Except.ok (Option.some (setChildNodes
           (patch pos (P5.element tag tag (buildAttrs s props)
             (nsMap (hSwitch s tag).space) P5List.nil OptP5.none
             Option.none Option.none)) cn)))) := rfl

theorem templateSt_none (cp : Path) (s : Schema) :
    templateSt OptNode.none cp s =
    (OptNode.none,
     Except.error (ConvErr.typeError "Cannot read properties of undefined (reading 'children')")) := rfl

theorem templateSt_some (c : Node) (cp : Path) (s : Schema) :
    templateSt (OptNode.some c) cp s =
    (match fragmentSt c cp s with
    | (c', r) => (OptNode.some c', r)) := rfl

theorem oneSt_text (v : String) (pos : Option Position) (s : Schema) (p : Path) :
    oneSt (Node.text v pos) s p =
    (Node.text v pos,
     Except.ok (Option.some (patch pos (P5.text v Option.none Option.none)))) := rfl

theorem oneSt_comment (v : String) (pos : Option Position) (s : Schema) (p : Path) :
    oneSt (Node.comment v pos) s p =
    (Node.comment v pos,
     Except.ok (Option.some (patch pos (P5.comment v Option.none Option.none)))) := rfl

theorem oneSt_doctype (pos : Option Position) (s : Schema) (p : Path) :
    oneSt (Node.doctype pos) s p =
    (Node.doctype pos,
     Except.ok (Option.some (patch pos (P5.doctype "html" "" "" Option.none Option.none)))) := rfl

theorem oneSt_other (ty : String) (pos : Option Position) (s : Schema) (p : Path) :
    oneSt (Node.other ty pos) s p = (Node.other ty pos, Except.ok Option.none) := rfl

theorem allSt_nil (i : Nat) (pp : Path) (s : Schema) :
    allSt NodeList.nil i pp s = (NodeList.nil, Except.ok P5List.nil) := rfl

theorem allSt_cons (c : Node) (cs : NodeList) (i : Nat) (pp : Path) (s : Schema) :
    allSt (NodeList.cons c cs) i pp s =
    (match oneSt c s (pp ++ [Step.child i]) with
    | (c', Except.error e) => (NodeList.cons c' cs, Except.error e)
    | (c', Except.ok Option.none) =>
      (NodeList.cons c' cs,
       Except.error (ConvErr.typeError "Cannot set properties of undefined (setting 'parentNode')"))
    | (c', Except.ok (Option.some child)) =>
      match allSt cs (i + 1) pp s with
      | (cs', Except.error e) => (NodeList.cons c' cs', Except.error e)
      | (cs', Except.ok rest) =>
        (NodeList.cons c' cs', Except.ok (P5List.cons (setParent child pp) rest))) := rfl

theorem fragmentSt_root (d : Option RootData) (cs : NodeList) (pos : Option Position)
    (sp : Path) (s : Schema) :
    fragmentSt (Node.root d cs pos) sp s =
    (match allSt cs 0 sp s with
    | (children', Except.error e) => (Node.root d children' pos, Except.error e)
    | (children', Except.ok cn) =>
      (Node.root d children' pos,
       Except.ok (patch pos
         (setChildNodes (P5.documentFragment P5List.nil Option.none Option.none) cn)))) := rfl

theorem fragmentSt_element (t : String) (pr : List (String × JsVal)) (cs : NodeList)
    (c : OptNode) (pos : Option Position) (sp : Path) (s : Schema) :
    fragmentSt (Node.element t pr cs c pos) sp s =
    (match allSt cs 0 sp s with
    | (children', Except.error e) => (Node.element t pr children' c pos, Except.error e)
    | (children', Except.ok cn) =>
      (Node.element t pr children' c pos,
       Except.ok (patch pos
         (setChildNodes (P5.documentFragment P5List.nil Option.none Option.none) cn)))) := rfl

theorem fragmentSt_text (v : String) (pos : Option Position) (sp : Path) (s : Schema) :
    fragmentSt (Node.text v pos) sp s =
    (Node.text v pos,
     Except.ok (patch pos (P5.documentFragment P5List.nil Option.none Option.none))) := rfl

theorem fragmentSt_comment (v : String) (pos : Option Position) (sp : Path) (s : Schema) :
    fragmentSt (Node.comment v pos) sp s =
    (Node.comment v pos,
     Except.ok (patch pos (P5.documentFragment P5List.nil Option.none Option.none))) := rfl

theorem fragmentSt_doctype (pos : Option Position) (sp : Path) (s : Schema) :
    fragmentSt (Node.doctype pos) sp s =
    (Node.doctype pos,
     Except.ok (patch pos (P5.documentFragment P5List.nil Option.none Option.none))) := rfl

theorem fragmentSt_other (ty : String) (pos : Option Position) (sp : Path) (s : Schema) :
    fragmentSt (Node.other ty pos) sp s =
    (Node.other ty pos,
     Except.ok (patch pos (P5.documentFragment P5List.nil Option.none Option.none))) := rfl

theorem parentsOk_document (self : Path) (ex : Option Path) (m : String) (cs : P5List)
    (par : Option Path) (l : Option SourceCodeLocation) :
    parentsOk self ex (P5.document m cs par l) =
    (decide (par = ex) && parentsOkList self 0 cs) := rfl

theorem parentsOk_fragment (self : Path) (ex : Option Path) (cs : P5List)
    (par : Option Path) (l : Option SourceCodeLocation) :
    parentsOk self ex (P5.documentFragment cs par l) =
    (decide (par = ex) && parentsOkList self 0 cs) := rfl

theorem parentsOk_element (self : Path) (ex : Option Path) (nn tn : String)
    (ats : List Attr) (ns : Option String) (cs : P5List) (ct : OptP5)
    (par : Option Path) (l : Option SourceCodeLocation) :
    parentsOk self ex (P5.element nn tn ats ns cs ct par l) =
    (decide (par = ex) && parentsOkList self 0 cs && parentsOkContent self ct) := rfl

theorem parentsOkContent_none (self : Path) :
    parentsOkContent self OptP5.none = true := rfl

theorem parentsOkContent_some (self : Path) (f : P5) :
    parentsOkContent self (OptP5.some f) =
    parentsOk (self ++ [Step.content]) Option.none f := rfl

theorem parentsOk_text (self : Path) (ex : Option Path) (v : String)
    (par : Option Path) (l : Option SourceCodeLocation) :
    parentsOk self ex (P5.text v par l) = decide (par = ex) := rfl

theorem parentsOk_comment (self : Path) (ex : Option Path) (d : String)
    (par : Option Path) (l : Option SourceCodeLocation) :
    parentsOk self ex (P5.comment d par l) = decide (par = ex) := rfl

theorem parentsOk_doctype (self : Path) (ex : Option Path) (n p s : String)
    (par : Option Path) (l : Option SourceCodeLocation) :
    parentsOk self ex (P5.doctype n p s par l) = decide (par = ex) := rfl

theorem parentsOkList_nil (parent : Path) (i : Nat) :
    parentsOkList parent i P5List.nil = true := rfl

theorem parentsOkList_cons (parent : Path) (i : Nat) (c : P5) (cs : P5List) :
    parentsOkList parent i (P5List.cons c cs) =
    (parentsOk (parent ++ [Step.child i]) (Option.some parent) c &&
     parentsOkList parent (i + 1) cs) := rfl

theorem corr_root_document (d : Option RootData) (cs : NodeList) (pos : Option Position)
    (m : String) (tcs : P5List) (par : Option Path) (l : Option SourceCodeLocation) :
    corr (Node.root d cs pos) (P5.document m tcs par l) = corrList cs tcs := rfl

theorem corr_element_element (tag : String) (props : List (String × JsVal)) (cs : NodeList)
    (cont : OptNode) (pos : Option Position) (nn tn : String) (ats : List Attr)
    (ns : Option String) (tcs : P5List) (tcont : OptP5) (par : Option Path)
    (l : Option SourceCodeLocation) :
    corr (Node.element tag props cs cont pos) (P5.element nn tn ats ns tcs tcont par l) =
    (decide (nn = tag) && decide (tn = tag) && corrList cs tcs && corrContent cont tcont) := rfl

theorem corrContent_none (cont : OptNode) : corrContent cont OptP5.none = true := rfl

theorem corrContent_some_fragment (c : Node) (fcs : P5List) (par : Option Path)
    (l : Option SourceCodeLocation) :
    corrContent (OptNode.some c) (OptP5.some (P5.documentFragment fcs par l)) =
    corrList (childrenOf c) fcs := rfl

theorem corr_text_text (v : String) (pos : Option Position) (tv : String)
    (par : Option Path) (l : Option SourceCodeLocation) :
    corr (Node.text v pos) (P5.text tv par l) = decide (tv = v) := rfl

theorem corr_comment_comment (v : String) (pos : Option Position) (d : String)
    (par : Option Path) (l : Option SourceCodeLocation) :
    corr (Node.comment v pos) (P5.comment d par l) = decide (d = v) := rfl

theorem corr_doctype_doctype (pos : Option Position) (n p s : String)
    (par : Option Path) (l : Option SourceCodeLocation) :
    corr (Node.doctype pos) (P5.doctype n p s par l) =
    (decide (n = "html") && decide (p = "") && decide (s = "")) := rfl

theorem corrList_nil : corrList NodeList.nil P5List.nil = true := rfl

theorem corrList_cons (c : Node) (cs : NodeList) (t : P5) (ts : P5List) :
    corrList (NodeList.cons c cs) (P5List.cons t ts) = (corr c t && corrList cs ts) := rfl

/-- `patch` either records exactly the location `specLocation` computes, or
leaves the node alone when that location is absent. -/
theorem patch_eq (pos : Option Position) (x : P5) :
    patch pos x =
    (match specLocation pos with
     | Option.some l => setScl x (Option.some l)
     | Option.none => x) := by
  cases pos with
  | none => rfl
  | some P =>
    rcases P with ⟨st, en⟩
    cases st <;> cases en <;> rfl

/-- `setScl` leaves the `parentNode` field alone. -/
theorem parentOf_setScl (x : P5) (l : Option SourceCodeLocation) :
    parentOf (setScl x l) = parentOf x := by
  cases x <;> rfl

/-- `setScl` records exactly the given location. -/
theorem sclOf_setScl (x : P5) (l : Option SourceCodeLocation) :
    sclOf (setScl x l) = l := by
  cases x <;> rfl

/-- `setScl` leaves the `childNodes` alone. -/
theorem childNodesOf_setScl (x : P5) (l : Option SourceCodeLocation) :
    childNodesOf (setScl x l) = childNodesOf x := by
  cases x <;> rfl

/-- `setChildNodes` leaves the location alone. -/
theorem sclOf_setChildNodes (x : P5) (cs : P5List) :
    sclOf (setChildNodes x cs) = sclOf x := by
  cases x <;> rfl

/-- `setContent` leaves the location alone. -/
theorem sclOf_setContent (x : P5) (ct : OptP5) :
    sclOf (setContent x ct) = sclOf x := by
  cases x <;> rfl

/-- A node patched while carrying no location ends up carrying exactly the
location `specLocation` prescribes. -/
theorem sclOf_patch_of_none (pos : Option Position) (x : P5) (hx : sclOf x = Option.none) :
    sclOf (patch pos x) = specLocation pos := by
  rw [patch_eq]
  rcases specLocation pos with _ | l
  · exact hx
  · exact sclOf_setScl x (Option.some l)

/-- The foreign-namespace adjustment never changes the emitted value. -/
theorem foreignAdjust_value (sp : Option String) (k val : String) :
    (foreignAdjust sp k val).value = val := by
  rcases sp with _ | s
  · rfl
  · by_cases h : s ≠ "html" ∧ s ≠ "svg"
    · simp only [foreignAdjust, if_pos h]
      rcases colonIdx k with _ | i <;> rfl
    · simp only [foreignAdjust, if_neg h]

/-- Assigning a parent to a node whose parent links check out (as an
unparented node at address `self`) yields a node checking out with that
parent recorded. -/
theorem parentsOk_setParent (x : P5) (self q : Path)
    (h : parentsOk self Option.none x = true) :
    parentsOk self (Option.some q) (setParent x q) = true := by
  cases x <;>
    simp_all [setParent, parentsOk_document, parentsOk_fragment, parentsOk_element,
      parentsOk_text, parentsOk_comment, parentsOk_doctype]

/-- Correspondence ignores the parent pointer. -/
theorem corr_setParent (c : Node) (x : P5) (q : Path) :
    corr c (setParent x q) = corr c x := by
  cases c <;> cases x <;> rfl

/-- The parent-link check ignores the location. -/
theorem parentsOk_setScl (self : Path) (e : Option Path) (x : P5)
    (l : Option SourceCodeLocation) :
    parentsOk self e (setScl x l) = parentsOk self e x := by
  cases x <;> rfl

/-- Correspondence ignores the location. -/
theorem corr_setScl (c : Node) (x : P5) (l : Option SourceCodeLocation) :
    corr c (setScl x l) = corr c x := by
  cases c <;> cases x <;> rfl

/-- `patch` leaves the parent pointer alone. -/
theorem parentOf_patch (pos : Option Position) (x : P5) :
    parentOf (patch pos x) = parentOf x := by
  rw [patch_eq]
  rcases specLocation pos with _ | l
  · rfl
  · exact parentOf_setScl x (Option.some l)

/-- `patch` does not disturb the parent-link check. -/
theorem parentsOk_patch (self : Path) (e : Option Path) (pos : Option Position) (x : P5) :
    parentsOk self e (patch pos x) = parentsOk self e x := by
  rw [patch_eq]
  rcases specLocation pos with _ | l
  · rfl
  · exact parentsOk_setScl self e x (Option.some l)

/-- `patch` does not disturb correspondence. -/
theorem corr_patch (c : Node) (pos : Option Position) (x : P5) :
    corr c (patch pos x) = corr c x := by
  rw [patch_eq]
  rcases specLocation pos with _ | l
  · rfl
  · exact corr_setScl c x (Option.some l)

/-- `setChildNodes` commutes with `setScl`. -/
theorem setChildNodes_setScl (x : P5) (l : Option SourceCodeLocation) (cs : P5List) :
    setChildNodes (setScl x l) cs = setScl (setChildNodes x cs) l := by
  cases x <;> rfl

/-- `setContent` commutes with `setScl`. -/
theorem setContent_setScl (x : P5) (l : Option SourceCodeLocation) (ct : OptP5) :
    setContent (setScl x l) ct = setScl (setContent x ct) l := by
  cases x <;> rfl

/-- `setChildNodes` commutes with `patch`. -/
theorem setChildNodes_patch (pos : Option Position) (x : P5) (cs : P5List) :
    setChildNodes (patch pos x) cs = patch pos (setChildNodes x cs) := by
  rw [patch_eq, patch_eq]
  rcases specLocation pos with _ | l
  · rfl
  · exact setChildNodes_setScl x (Option.some l) cs

/-- `setContent` commutes with `patch`. -/
theorem setContent_patch (pos : Option Position) (x : P5) (ct : OptP5) :
    setContent (patch pos x) ct = patch pos (setContent x ct) := by
  rw [patch_eq, patch_eq]
  rcases specLocation pos with _ | l
  · rfl
  · exact setContent_setScl x (Option.some l) ct


/-- The converters thread the source tree through unchanged: every
converter returns exactly the source node/list/subtree it was given.
Proved by strong induction on the size of the source value. -/
theorem frameAux : ∀ N : Nat,
    (∀ n : Node, sizeOf n ≤ N → ∀ s p, (oneSt n s p).1 = n)
  ∧ (∀ cs : NodeList, sizeOf cs ≤ N → ∀ i pp s, (allSt cs i pp s).1 = cs)
  ∧ (∀ n : Node, sizeOf n ≤ N → ∀ sp s, (fragmentSt n sp s).1 = n)
  ∧ (∀ c : OptNode, sizeOf c ≤ N → ∀ cp s, (templateSt c cp s).1 = c) := by
  intro N
  induction N using Nat.strong_induction_on with
  | _ N IH =>
    refine ⟨?_, ?_, ?_, ?_⟩
    · intro n hn s p
      match n with
      | Node.root d cs pos =>
        have hsz : sizeOf cs < N := by
          have := Node.root.sizeOf_spec d cs pos; omega
        have hA := (IH (sizeOf cs) hsz).2.1 cs le_rfl 0 p s
        rw [oneSt_root]
        rcases h : allSt cs 0 p s with ⟨cs', rc⟩
        rw [h] at hA
        cases rc <;> simp_all
      | Node.text v pos => rw [oneSt_text]
      | Node.comment v pos => rw [oneSt_comment]
      | Node.doctype pos => rw [oneSt_doctype]
      | Node.other ty pos => rw [oneSt_other]
      | Node.element tag props cs cont pos =>
        have hsz : sizeOf cs < N := by
          have := Node.element.sizeOf_spec tag props cs cont pos; omega
        have hct : sizeOf cont < N := by
          have := Node.element.sizeOf_spec tag props cs cont pos; omega
        have hA := (IH (sizeOf cs) hsz).2.1 cs le_rfl 0 p (hSwitch s tag)
        have hT := (IH (sizeOf cont) hct).2.2.2 cont le_rfl (p ++ [Step.content]) (hSwitch s tag)
        rw [oneSt_element]
        rcases h : allSt cs 0 p (hSwitch s tag) with ⟨cs', rc⟩
        rw [h] at hA
        dsimp only at hA
        subst hA
        match rc with
        | Except.error e => simp
        | Except.ok cn =>
          by_cases ht : tag = "template"
          · simp only [ht, if_pos rfl]
            rcases h2 : templateSt cont (p ++ [Step.content]) (hSwitch s "template") with ⟨cont', rt⟩
            rw [ht] at hT
            rw [h2] at hT
            dsimp only at hT
            subst hT
            cases rt <;> simp [ht]
          · simp [ht]
    · intro cs hcs i pp s
      match cs with
      | NodeList.nil => rw [allSt_nil]
      | NodeList.cons c rest =>
        have hc : sizeOf c < N := by
          have := NodeList.cons.sizeOf_spec c rest; omega
        have hr : sizeOf rest < N := by
          have := NodeList.cons.sizeOf_spec c rest; omega
        have h1 := (IH (sizeOf c) hc).1 c le_rfl s (pp ++ [Step.child i])
        have h2 := (IH (sizeOf rest) hr).2.1 rest le_rfl (i + 1) pp s
        rw [allSt_cons]
        rcases hone : oneSt c s (pp ++ [Step.child i]) with ⟨c', rc⟩
        rw [hone] at h1
        dsimp only at h1
        subst h1
        match rc with
        | Except.error e => simp
        | Except.ok Option.none => simp
        | Except.ok (Option.some child) =>
          rcases hall : allSt rest (i + 1) pp s with ⟨rest', rr⟩
          rw [hall] at h2
          dsimp only at h2
          subst h2
          cases rr <;> simp
    · intro n hn sp s
      match n with
      | Node.root d cs pos =>
        have hsz : sizeOf cs < N := by
          have := Node.root.sizeOf_spec d cs pos; omega
        have hA := (IH (sizeOf cs) hsz).2.1 cs le_rfl 0 sp s
        rw [fragmentSt_root]
        rcases h : allSt cs 0 sp s with ⟨cs', rc⟩
        rw [h] at hA
        cases rc <;> simp_all
      | Node.element tag props cs cont pos =>
        have hsz : sizeOf cs < N := by
          have := Node.element.sizeOf_spec tag props cs cont pos; omega
        have hA := (IH (sizeOf cs) hsz).2.1 cs le_rfl 0 sp s
        rw [fragmentSt_element]
        rcases h : allSt cs 0 sp s with ⟨cs', rc⟩
        rw [h] at hA
        cases rc <;> simp_all
      | Node.text v pos => rw [fragmentSt_text]
      | Node.comment v pos => rw [fragmentSt_comment]
      | Node.doctype pos => rw [fragmentSt_doctype]
      | Node.other ty pos => rw [fragmentSt_other]
    · intro c hc cp s
      match c with
      | OptNode.none => rw [templateSt_none]
      | OptNode.some n =>
        have hn : sizeOf n < N := by
          have := OptNode.some.sizeOf_spec n; omega
        have hF := (IH (sizeOf n) hn).2.2.1 n le_rfl cp s
        rw [templateSt_some]
        rcases h : fragmentSt n cp s with ⟨n', rf⟩
        rw [h] at hF
        dsimp only at hF
        subst hF
        simp

/-- C8: toParse5 never mutates the input: after any conversion (successful
or failing, at any schema and address) the source node comes back exactly
as it went in, and re-running the conversion on the returned source tree
yields the same result as the first run.  (The JS functions could mutate
their arguments through references; the embedding returns the source tree
a converter leaves behind precisely so this is a provable statement.) -/
theorem claim8_no_mutation : ∀ (n : Node) (s : Schema) (p : Path),
    (oneSt n s p).1 = n ∧ (oneSt (oneSt n s p).1 s p).2 = (oneSt n s p).2 := by
  intro n s p
  have h := (frameAux (sizeOf n)).1 n le_rfl s p
  exact ⟨h, by rw [h]⟩

/-- C2: converting `<div><svg><rect/></svg><span/></div>` with the initial
HTML schema gives the `div` the HTML namespace URI, the `svg` and the
`rect` the SVG namespace URI, and the sibling `span` (outside the svg
subtree) the HTML namespace URI again: the schema switch is confined to
the svg element's own branch of the recursion. -/
theorem claim2_namespace_propagation :
    toParse5 divSvgSpanTree Option.none =
      Except.ok (Option.some
        (P5.element "div" "div" [] (Option.some htmlURI)
          (P5List.cons
            (P5.element "svg" "svg" [] (Option.some svgURI)
              (P5List.cons (P5.element "rect" "rect" [] (Option.some svgURI) P5List.nil
                OptP5.none (Option.some [Step.child 0]) Option.none) P5List.nil)
              OptP5.none (Option.some []) Option.none)
            (P5List.cons (P5.element "span" "span" [] (Option.some htmlURI) P5List.nil
              OptP5.none (Option.some []) Option.none) P5List.nil))
          OptP5.none Option.none Option.none))
  ∧ nsAtPath (toParse5 divSvgSpanTree Option.none) [] = Option.some htmlURI
  ∧ nsAtPath (toParse5 divSvgSpanTree Option.none) [Step.child 0] = Option.some svgURI
  ∧ nsAtPath (toParse5 divSvgSpanTree Option.none) [Step.child 0, Step.child 0] =
      Option.some svgURI
  ∧ nsAtPath (toParse5 divSvgSpanTree Option.none) [Step.child 1] = Option.some htmlURI :=
  ⟨rfl, rfl, rfl, rfl, rfl⟩

/-- C4: a source `template` element with empty `children` and a `content`
subtree holding one text node `"x"` produces an element whose
`childNodes` is empty and whose `content` is a document-fragment holding
exactly one text node `"x"`: the content is converted once and lives only
under `content`, never under `childNodes`. -/
theorem claim4_template_content :
    toParse5 templateTree Option.none =
      Except.ok (Option.some
        (P5.element "template" "template" [] (Option.some htmlURI) P5List.nil
          (OptP5.some (P5.documentFragment
            (P5List.cons (P5.text "x" (Option.some [Step.content]) Option.none) P5List.nil)
            Option.none Option.none))
          Option.none Option.none))
  ∧ (∃ r, toParse5 templateTree Option.none = Except.ok (Option.some r)
      ∧ childNodesOf r = P5List.nil
      ∧ ∃ f, contentOf r = OptP5.some f
        ∧ childNodesOf f =
            P5List.cons (P5.text "x" (Option.some [Step.content]) Option.none) P5List.nil) :=
  ⟨rfl,
   ⟨P5.element "template" "template" [] (Option.some htmlURI) P5List.nil
      (OptP5.some (P5.documentFragment
        (P5List.cons (P5.text "x" (Option.some [Step.content]) Option.none) P5List.nil)
        Option.none Option.none))
      Option.none Option.none,
    rfl, rfl,
    ⟨P5.documentFragment
       (P5List.cons (P5.text "x" (Option.some [Step.content]) Option.none) P5List.nil)
       Option.none Option.none, rfl, rfl⟩⟩⟩

/-- C7 counterexample: a top-level node of unrecognized type does NOT make
the conversion throw: `toParse5` returns `undefined` (modelled
`Except.ok Option.none`), because the dispatcher has no handler and no
`unknown` fallback, and `zwitch` then simply returns `undefined`.  This
refutes the claim that every unknown-typed input fails with a propagated
exception. -/
theorem claim7_counterexample :
    toParse5 (Node.other "custom" Option.none) Option.none = Except.ok Option.none := rfl

/-- C7 amended: a node of unrecognized type converts to `undefined`
without an exception; when such a node occurs in a children list, the
child-list transformer's `child.parentNode = p5` assignment on `undefined`
throws a TypeError, so the conversion of any tree containing it aborts
with a hard error and no partial result; only a TOP-LEVEL unknown node
yields `undefined` instead of an exception. -/
theorem claim7_amended :
    (∀ (ty : String) (pos : Option Position) (s : Schema) (p : Path),
       (oneSt (Node.other ty pos) s p).2 = Except.ok Option.none)
  ∧ (∀ (ty : String) (pos : Option Position) (cs : NodeList) (i : Nat) (pp : Path) (s : Schema),
       ∃ e, (allSt (NodeList.cons (Node.other ty pos) cs) i pp s).2 = Except.error e)
  ∧ (∀ (ty : String) (pos : Option Position) (d : Option RootData) (cs : NodeList)
       (rpos : Option Position) (sp : Option String),
       ∃ e, toParse5 (Node.root d (NodeList.cons (Node.other ty pos) cs) rpos) sp =
         Except.error e) := by
  refine ⟨?_, ?_, ?_⟩
  · intro ty pos s p
    rw [oneSt_other]
  · intro ty pos cs i pp s
    exact ⟨ConvErr.typeError "Cannot set properties of undefined (setting 'parentNode')",
      by rw [allSt_cons, oneSt_other]⟩
  · intro ty pos d cs rpos sp
    exact ⟨ConvErr.typeError "Cannot set properties of undefined (setting 'parentNode')",
      by show (oneSt _ _ _).2 = _
         rw [oneSt_root, allSt_cons, oneSt_other]⟩

/-- C10: a source `template` element with no `content` subtree makes the
whole conversion fail with a thrown TypeError (`fragment` reads
`undefined.children`), at any schema and address, and in particular at the
top level; no template element with an empty or absent `content` field is
ever produced. -/
theorem claim10_template_missing_content :
    (∀ (props : List (String × JsVal)) (cs : NodeList) (pos : Option Position)
       (s : Schema) (p : Path),
       ∃ e, (oneSt (Node.element "template" props cs OptNode.none pos) s p).2 =
         Except.error e)
  ∧ (∀ (props : List (String × JsVal)) (cs : NodeList) (pos : Option Position)
       (sp : Option String),
       ∃ e, toParse5 (Node.element "template" props cs OptNode.none pos) sp =
         Except.error e) := by
  have main : ∀ (props : List (String × JsVal)) (cs : NodeList) (pos : Option Position)
      (s : Schema) (p : Path),
      ∃ e, (oneSt (Node.element "template" props cs OptNode.none pos) s p).2 =
        Except.error e := by
    intro props cs pos s p
    rw [oneSt_element]
    rcases h : allSt cs 0 p (hSwitch s "template") with ⟨cs', rc⟩
    match rc with
    | Except.error e => exact ⟨e, rfl⟩
    | Except.ok cn =>
      exact ⟨ConvErr.typeError "Cannot read properties of undefined (reading 'children')", rfl⟩
  exact ⟨main, fun props cs pos sp => main props cs pos _ []⟩

/-- C3 counterexample: the element's own attributes are NOT looked up in
the SVG schema.  For `<svg hidden=0>` converted while the active schema is
HTML, the code looks `hidden` up in the HTML schema (where it is boolean,
so the falsy `0` is dropped and no attribute is emitted), while an
SVG-schema lookup (as the claim states) would have emitted
`hidden="0"`. -/
theorem claim3_counterexample :
    toParse5 svgHiddenTree Option.none =
      Except.ok (Option.some (P5.element "svg" "svg" [] (Option.some svgURI)
        P5List.nil OptP5.none Option.none Option.none))
  ∧ buildAttrs svg [("hidden", JsVal.num 0)] =
      [⟨"hidden", "0", Option.none, Option.none⟩]
  ∧ ([] : List Attr) ≠ [⟨"hidden", "0", Option.none, Option.none⟩] :=
  ⟨rfl, rfl, by decide⟩

/-- C5: for every property handled by the attribute loop: value `false`
emits nothing; a value classified boolean by the active schema that is
falsy emits nothing; boolean `true` emits an attribute with the empty
string as value; any other string/number value emits an attribute whose
value is its default stringification; and an element's produced `attrs`
are exactly its properties run through this loop under the schema active
at entry. -/
theorem claim5_attr_emission :
    (∀ (s : Schema) (k : String), attrOf s k (JsVal.bool false) = Option.none)
  ∧ (∀ (s : Schema) (k : String) (v : JsVal),
       (find s k).boolean = true → jsFalsy v = true → attrOf s k v = Option.none)
  ∧ (∀ (s : Schema) (k : String),
       ∃ a, attrOf s k (JsVal.bool true) = Option.some a ∧ a.value = "")
  ∧ (∀ (s : Schema) (k : String) (t : String),
       ¬((find s k).boolean = true ∧ t = "") →
       ∃ a, attrOf s k (JsVal.str t) = Option.some a ∧ a.value = t)
  ∧ (∀ (s : Schema) (k : String) (n : Int),
       ¬((find s k).boolean = true ∧ n = 0) →
       ∃ a, attrOf s k (JsVal.num n) = Option.some a ∧ a.value = toString n)
  ∧ (∀ (tag : String) (props : List (String × JsVal)) (cs : NodeList) (cont : OptNode)
       (pos : Option Position) (s : Schema) (p : Path) (r : P5),
       (oneSt (Node.element tag props cs cont pos) s p).2 = Except.ok (Option.some r) →
       attrsOf r = Option.some (buildAttrs s props)) := by
  refine ⟨?_, ?_, ?_, ?_, ?_, ?_⟩
  · intro s k
    rfl
  · intro s k v hb hf
    by_cases hv : v = JsVal.bool false
    · subst hv; rfl
    · simp [attrOf, hv, hb, hf]
  · intro s k
    refine ⟨foreignAdjust (find s k).space k "", ?_, foreignAdjust_value _ _ _⟩
    simp [attrOf, jsFalsy, attrValue]
  · intro s k t h
    have hc : ¬(((find s k).boolean && jsFalsy (JsVal.str t)) = true) := by
      simp only [jsFalsy, Bool.and_eq_true, decide_eq_true_eq]
      exact h
    refine ⟨foreignAdjust (find s k).space k t, ?_, foreignAdjust_value _ _ _⟩
    simp only [attrOf, if_neg (by simp : ¬(JsVal.str t = JsVal.bool false)), if_neg hc]
    rfl
  · intro s k n h
    have hc : ¬(((find s k).boolean && jsFalsy (JsVal.num n)) = true) := by
      simp only [jsFalsy, Bool.and_eq_true, decide_eq_true_eq]
      exact h
    refine ⟨foreignAdjust (find s k).space k (toString n), ?_, foreignAdjust_value _ _ _⟩
    simp only [attrOf, if_neg (by simp : ¬(JsVal.num n = JsVal.bool false)), if_neg hc]
    rfl
  · intro tag props cs cont pos s p r h
    rw [oneSt_element] at h
    rcases hA : allSt cs 0 p (hSwitch s tag) with ⟨cs', rc⟩
    rw [hA] at h
    match rc with
    | Except.error e => simp at h
    | Except.ok cn =>
      dsimp only at h
      by_cases ht : tag = "template"
      · rw [if_pos ht] at h
        rcases hT : templateSt cont (p ++ [Step.content]) (hSwitch s tag) with ⟨cont', rt⟩
        rw [hT] at h
        match rt with
        | Except.error e => simp at h
        | Except.ok fr =>
          have hr : setContent
              (setChildNodes
                (patch pos (P5.element tag tag (buildAttrs s props)
                  (nsMap (hSwitch s tag).space) P5List.nil OptP5.none
                  Option.none Option.none)) cn)
              (OptP5.some fr) = r := by
            injection h with h1
            injection h1 with h2
          subst hr
          rw [patch_eq]
          rcases specLocation pos with _ | l <;> rfl
      · rw [if_neg ht] at h
        have hr : setChildNodes
            (patch pos (P5.element tag tag (buildAttrs s props)
              (nsMap (hSwitch s tag).space) P5List.nil OptP5.none
              Option.none Option.none)) cn = r := by
          injection h with h1
          injection h1 with h2
        subst hr
        rw [patch_eq]
        rcases specLocation pos with _ | l <;> rfl

/-- Witness for C5 at the spec's `disabled`/`id` examples. -/
theorem claim5_attr_emission_witness :
    attrOf html "disabled" (JsVal.num 0) = Option.none
  ∧ (∃ a, attrOf html "id" (JsVal.str "a") = Option.some a ∧ a.value = "a")
  ∧ (∃ a, attrOf html "id" (JsVal.num 7) = Option.some a ∧ a.value = toString (7 : Int))
  ∧ attrsOf (P5.element "div" "div" [⟨"id", "a", Option.none, Option.none⟩]
      (Option.some htmlURI) P5List.nil OptP5.none Option.none Option.none) =
      Option.some (buildAttrs html [("disabled", JsVal.bool false), ("id", JsVal.str "a")]) :=
  ⟨claim5_attr_emission.2.1 html "disabled" (JsVal.num 0) rfl rfl,
   claim5_attr_emission.2.2.2.1 html "id" "a" (by decide),
   claim5_attr_emission.2.2.2.2.1 html "id" 7 (by decide),
   claim5_attr_emission.2.2.2.2.2 "div"
     [("disabled", JsVal.bool false), ("id", JsVal.str "a")]
     NodeList.nil OptNode.none Option.none html []
     (P5.element "div" "div" [⟨"id", "a", Option.none, Option.none⟩]
       (Option.some htmlURI) P5List.nil OptP5.none Option.none Option.none) rfl⟩

/-- C9: an attribute whose schema metadata assigns a foreign space
(neither `html` nor `svg`): with no colon in the name, the emitted entry
keeps the full name, carries `prefix` present-but-empty, and the resolved
namespace URI; with a colon, the name is split at the first colon into
prefix and local name. -/
theorem claim9_foreign_namespace :
    ∀ (s : Schema) (k : String) (v : JsVal) (a : Attr) (sp : String),
      attrOf s k v = Option.some a →
      (find s k).space = Option.some sp → sp ≠ "html" → sp ≠ "svg" →
      ((colonIdx k = Option.none →
          a.name = k ∧ a.pfx = Option.some "" ∧ a.namespace_ = nsMap sp)
       ∧ (∀ i, colonIdx k = Option.some i →
          a.name = strDrop k (i + 1) ∧ a.pfx = Option.some (strTake k i) ∧
          a.namespace_ = nsMap sp)) := by
  intro s k v a sp ha hsp h1 h2
  have hfa : foreignAdjust (find s k).space k (attrValue v) = a := by
    by_cases hv : v = JsVal.bool false
    · rw [hv] at ha; simp [attrOf] at ha
    · by_cases hb : ((find s k).boolean && jsFalsy v) = true
      · simp [attrOf, hv, hb] at ha
      · simp only [attrOf, if_neg hv, if_neg hb, Option.some.injEq] at ha
        exact ha
  rw [hsp] at hfa
  have hcond : sp ≠ "html" ∧ sp ≠ "svg" := ⟨h1, h2⟩
  simp only [foreignAdjust, if_pos hcond] at hfa
  constructor
  · intro hc
    rw [hc] at hfa
    rw [← hfa]
    exact ⟨rfl, rfl, rfl⟩
  · intro i hc
    rw [hc] at hfa
    rw [← hfa]
    exact ⟨rfl, rfl, rfl⟩

/-- Witness for C9 at the colonless foreign attribute `xmlns` and the
colon-carrying `xlink:href`. -/
theorem claim9_foreign_namespace_witness :
    ((colonIdx "xmlns" = Option.none →
        (Attr.mk "xmlns" "u" (Option.some "") (nsMap "xmlns")).name = "xmlns" ∧
        (Attr.mk "xmlns" "u" (Option.some "") (nsMap "xmlns")).pfx = Option.some "" ∧
        (Attr.mk "xmlns" "u" (Option.some "") (nsMap "xmlns")).namespace_ = nsMap "xmlns")
     ∧ (∀ i, colonIdx "xmlns" = Option.some i →
        (Attr.mk "xmlns" "u" (Option.some "") (nsMap "xmlns")).name = strDrop "xmlns" (i + 1) ∧
        (Attr.mk "xmlns" "u" (Option.some "") (nsMap "xmlns")).pfx =
          Option.some (strTake "xmlns" i) ∧
        (Attr.mk "xmlns" "u" (Option.some "") (nsMap "xmlns")).namespace_ = nsMap "xmlns"))
  ∧ ((colonIdx "xlink:href" = Option.none →
        (Attr.mk "href" "u" (Option.some "xlink") (nsMap "xlink")).name = "xlink:href" ∧
        (Attr.mk "href" "u" (Option.some "xlink") (nsMap "xlink")).pfx = Option.some "" ∧
        (Attr.mk "href" "u" (Option.some "xlink") (nsMap "xlink")).namespace_ = nsMap "xlink")
     ∧ (∀ i, colonIdx "xlink:href" = Option.some i →
        (Attr.mk "href" "u" (Option.some "xlink") (nsMap "xlink")).name =
          strDrop "xlink:href" (i + 1) ∧
        (Attr.mk "href" "u" (Option.some "xlink") (nsMap "xlink")).pfx =
          Option.some (strTake "xlink:href" i) ∧
        (Attr.mk "href" "u" (Option.some "xlink") (nsMap "xlink")).namespace_ =
          nsMap "xlink")) :=
  ⟨claim9_foreign_namespace html "xmlns" (JsVal.str "u")
     ⟨"xmlns", "u", Option.some "", nsMap "xmlns"⟩ "xmlns" rfl rfl
     (by decide) (by decide),
   claim9_foreign_namespace html "xlink:href" (JsVal.str "u")
     ⟨"href", "u", Option.some "xlink", nsMap "xlink"⟩ "xlink" rfl rfl
     (by decide) (by decide)⟩

/-- C6: every produced node's `sourceCodeLocation` is exactly the one
prescribed by the spec's copy rule: the six fields copied verbatim from
`position.start`/`position.end` when the position and both endpoints are
present, and no `sourceCodeLocation` at all otherwise — both for
dispatcher-produced nodes and for content fragments. -/
theorem claim6_location :
    (∀ (n : Node) (s : Schema) (p : Path) (r : P5),
       (oneSt n s p).2 = Except.ok (Option.some r) → sclOf r = specLocation (positionOf n))
  ∧ (∀ (n : Node) (sp : Path) (s : Schema) (r : P5),
       (fragmentSt n sp s).2 = Except.ok r → sclOf r = specLocation (positionOf n)) := by
  constructor
  · intro n s p r h
    match n with
    | Node.root d cs pos =>
      rw [oneSt_root] at h
      rcases hA : allSt cs 0 p s with ⟨cs', rc⟩
      rw [hA] at h
      match rc with
      | Except.error e => simp at h
      | Except.ok cn =>
        have hr : patch pos (setChildNodes
            (P5.document (docMode d) P5List.nil Option.none Option.none) cn) = r := by
          injection h with h1
          injection h1 with h2
        subst hr
        exact sclOf_patch_of_none pos _ rfl
    | Node.element tag props cs cont pos =>
      rw [oneSt_element] at h
      rcases hA : allSt cs 0 p (hSwitch s tag) with ⟨cs', rc⟩
      rw [hA] at h
      match rc with
      | Except.error e => simp at h
      | Except.ok cn =>
        dsimp only at h
        by_cases ht : tag = "template"
        · rw [if_pos ht] at h
          rcases hT : templateSt cont (p ++ [Step.content]) (hSwitch s tag) with ⟨cont', rt⟩
          rw [hT] at h
          match rt with
          | Except.error e => simp at h
          | Except.ok fr =>
            have hr : setContent
                (setChildNodes
                  (patch pos (P5.element tag tag (buildAttrs s props)
                    (nsMap (hSwitch s tag).space) P5List.nil OptP5.none
                    Option.none Option.none)) cn)
                (OptP5.some fr) = r := by
              injection h with h1
              injection h1 with h2
            subst hr
            rw [sclOf_setContent, sclOf_setChildNodes]
            exact sclOf_patch_of_none pos _ rfl
        · rw [if_neg ht] at h
          have hr : setChildNodes
              (patch pos (P5.element tag tag (buildAttrs s props)
                (nsMap (hSwitch s tag).space) P5List.nil OptP5.none
                Option.none Option.none)) cn = r := by
            injection h with h1
            injection h1 with h2
          subst hr
          rw [sclOf_setChildNodes]
          exact sclOf_patch_of_none pos _ rfl
    | Node.text v pos =>
      rw [oneSt_text] at h
      have hr : patch pos (P5.text v Option.none Option.none) = r := by
        injection h with h1
        injection h1 with h2
      subst hr
      exact sclOf_patch_of_none pos _ rfl
    | Node.comment v pos =>
      rw [oneSt_comment] at h
      have hr : patch pos (P5.comment v Option.none Option.none) = r := by
        injection h with h1
        injection h1 with h2
      subst hr
      exact sclOf_patch_of_none pos _ rfl
    | Node.doctype pos =>
      rw [oneSt_doctype] at h
      have hr : patch pos (P5.doctype "html" "" "" Option.none Option.none) = r := by
        injection h with h1
        injection h1 with h2
      subst hr
      exact sclOf_patch_of_none pos _ rfl
    | Node.other ty pos =>
      rw [oneSt_other] at h
      simp at h
  · intro n sp s r h
    match n with
    | Node.root d cs pos =>
      rw [fragmentSt_root] at h
      rcases hA : allSt cs 0 sp s with ⟨cs', rc⟩
      rw [hA] at h
      match rc with
      | Except.error e => simp at h
      | Except.ok cn =>
        have hr : patch pos (setChildNodes
            (P5.documentFragment P5List.nil Option.none Option.none) cn) = r := by
          injection h with h1
        subst hr
        exact sclOf_patch_of_none pos _ rfl
    | Node.element t pr cs c pos =>
      rw [fragmentSt_element] at h
      rcases hA : allSt cs 0 sp s with ⟨cs', rc⟩
      rw [hA] at h
      match rc with
      | Except.error e => simp at h
      | Except.ok cn =>
        have hr : patch pos (setChildNodes
            (P5.documentFragment P5List.nil Option.none Option.none) cn) = r := by
          injection h with h1
        subst hr
        exact sclOf_patch_of_none pos _ rfl
    | Node.text v pos =>
      rw [fragmentSt_text] at h
      have hr : patch pos (P5.documentFragment P5List.nil Option.none Option.none) = r := by
        injection h with h1
      subst hr
      exact sclOf_patch_of_none pos _ rfl
    | Node.comment v pos =>
      rw [fragmentSt_comment] at h
      have hr : patch pos (P5.documentFragment P5List.nil Option.none Option.none) = r := by
        injection h with h1
      subst hr
      exact sclOf_patch_of_none pos _ rfl
    | Node.doctype pos =>
      rw [fragmentSt_doctype] at h
      have hr : patch pos (P5.documentFragment P5List.nil Option.none Option.none) = r := by
        injection h with h1
      subst hr
      exact sclOf_patch_of_none pos _ rfl
    | Node.other ty pos =>
      rw [fragmentSt_other] at h
      have hr : patch pos (P5.documentFragment P5List.nil Option.none Option.none) = r := by
        injection h with h1
      subst hr
      exact sclOf_patch_of_none pos _ rfl

/-- Witness for C6 at the spec's located text example and at a
position-free text node. -/
theorem claim6_location_witness :
    sclOf (P5.text "abc" Option.none (Option.some ⟨1, 1, 0, 1, 4, 3⟩)) =
      specLocation (positionOf locatedTextTree)
  ∧ sclOf (P5.text "nowhere" Option.none Option.none) =
      specLocation (positionOf (Node.text "nowhere" Option.none)) :=
  ⟨claim6_location.1 locatedTextTree html []
     (P5.text "abc" Option.none (Option.some ⟨1, 1, 0, 1, 4, 3⟩)) rfl,
   claim6_location.1 (Node.text "nowhere" Option.none) html []
     (P5.text "nowhere" Option.none Option.none) rfl⟩

/-- C3 amended: for an element named `svg` met while the active schema is
HTML, the switch to SVG takes effect for the element's `namespaceURI` and
for the conversion of all its descendants, but the element's OWN
attributes are still looked up in the pre-switch (HTML) schema — the
switch happens only after the attribute loop. -/
theorem claim3_amended :
    ∀ (props : List (String × JsVal)) (cs : NodeList) (cont : OptNode) (pos : Option Position)
      (p : Path) (r : P5),
      (oneSt (Node.element "svg" props cs cont pos) html p).2 = Except.ok (Option.some r) →
      attrsOf r = Option.some (buildAttrs html props)
      ∧ namespaceURIOf r = Option.some svgURI
      ∧ ∃ l, (allSt cs 0 p svg).2 = Except.ok l ∧ childNodesOf r = l := by
  intro props cs cont pos p r h
  rw [oneSt_element] at h
  rcases hA : allSt cs 0 p (hSwitch html "svg") with ⟨cs', rc⟩
  rw [hA] at h
  match rc with
  | Except.error e => simp at h
  | Except.ok cn =>
    dsimp only at h
    rw [if_neg (by decide : ¬("svg" = "template"))] at h
    have hr : setChildNodes
        (patch pos (P5.element "svg" "svg" (buildAttrs html props)
          (nsMap (hSwitch html "svg").space) P5List.nil OptP5.none
          Option.none Option.none)) cn = r := by
      injection h with h1
      injection h1 with h2
    subst hr
    have hall : (allSt cs 0 p svg).2 = Except.ok cn := by
      have heq : allSt cs 0 p svg = allSt cs 0 p (hSwitch html "svg") := rfl
      rw [heq, hA]
    rw [patch_eq]
    rcases specLocation pos with _ | l
    · exact ⟨rfl, rfl, cn, hall, rfl⟩
    · exact ⟨rfl, rfl, cn, hall, rfl⟩

/-- Witness for C3 amended at `<svg hidden=0><rect/></svg>`. -/
theorem claim3_amended_witness :
    attrsOf (P5.element "svg" "svg" [] (Option.some svgURI)
        (P5List.cons (P5.element "rect" "rect" [] (Option.some svgURI) P5List.nil
          OptP5.none (Option.some []) Option.none) P5List.nil)
        OptP5.none Option.none Option.none) =
      Option.some (buildAttrs html [("hidden", JsVal.num 0)])
  ∧ namespaceURIOf (P5.element "svg" "svg" [] (Option.some svgURI)
        (P5List.cons (P5.element "rect" "rect" [] (Option.some svgURI) P5List.nil
          OptP5.none (Option.some []) Option.none) P5List.nil)
        OptP5.none Option.none Option.none) = Option.some svgURI
  ∧ ∃ l, (allSt (NodeList.cons (Node.element "rect" [] NodeList.nil OptNode.none Option.none)
        NodeList.nil) 0 [] svg).2 = Except.ok l
      ∧ childNodesOf (P5.element "svg" "svg" [] (Option.some svgURI)
          (P5List.cons (P5.element "rect" "rect" [] (Option.some svgURI) P5List.nil
            OptP5.none (Option.some []) Option.none) P5List.nil)
          OptP5.none Option.none Option.none) = l :=
  claim3_amended [("hidden", JsVal.num 0)]
    (NodeList.cons (Node.element "rect" [] NodeList.nil OptNode.none Option.none) NodeList.nil)
    OptNode.none Option.none []
    (P5.element "svg" "svg" [] (Option.some svgURI)
      (P5List.cons (P5.element "rect" "rect" [] (Option.some svgURI) P5List.nil
        OptP5.none (Option.some []) Option.none) P5List.nil)
      OptP5.none Option.none Option.none) rfl

/-- Joint induction (strong induction on the size of the source value):
every successful conversion produces a tree whose parent links check out
(children point to their parent's address, roots and content fragments
are unparented) and which corresponds node-for-node, in order, to the
source tree. -/
theorem convAux : ∀ N : Nat,
    (∀ n : Node, sizeOf n ≤ N → ∀ s p r, (oneSt n s p).2 = Except.ok (Option.some r) →
       parentOf r = Option.none ∧ parentsOk p Option.none r = true ∧ corr n r = true)
  ∧ (∀ cs : NodeList, sizeOf cs ≤ N → ∀ i pp s l, (allSt cs i pp s).2 = Except.ok l →
       parentsOkList pp i l = true ∧ corrList cs l = true)
  ∧ (∀ n : Node, sizeOf n ≤ N → ∀ sp s r, (fragmentSt n sp s).2 = Except.ok r →
       parentOf r = Option.none ∧ parentsOk sp Option.none r = true ∧
       ∃ fcs loc, r = P5.documentFragment fcs Option.none loc ∧
         corrList (childrenOf n) fcs = true)
  ∧ (∀ c : OptNode, sizeOf c ≤ N → ∀ cp s fr, (templateSt c cp s).2 = Except.ok fr →
       parentsOk cp Option.none fr = true ∧ corrContent c (OptP5.some fr) = true) := by
  intro N
  induction N using Nat.strong_induction_on with
  | _ N IH =>
    refine ⟨?_, ?_, ?_, ?_⟩
    · intro n hn s p r h
      match n with
      | Node.root d cs pos =>
        have hsz : sizeOf cs < N := by
          have := Node.root.sizeOf_spec d cs pos; omega
        rw [oneSt_root] at h
        rcases hA : allSt cs 0 p s with ⟨cs', rc⟩
        rw [hA] at h
        match rc with
        | Except.error e => simp at h
        | Except.ok cn =>
          have hl := (IH (sizeOf cs) hsz).2.1 cs le_rfl 0 p s cn (by rw [hA])
          have hr : patch pos (setChildNodes
              (P5.document (docMode d) P5List.nil Option.none Option.none) cn) = r := by
            injection h with h1
            injection h1 with h2
          subst hr
          refine ⟨?_, ?_, ?_⟩
          · rw [parentOf_patch]; rfl
          · rw [parentsOk_patch]
            show parentsOk p Option.none
              (P5.document (docMode d) cn Option.none Option.none) = true
            rw [parentsOk_document]
            simp [hl.1]
          · rw [corr_patch]
            show corr (Node.root d cs pos)
              (P5.document (docMode d) cn Option.none Option.none) = true
            rw [corr_root_document]
            exact hl.2
      | Node.element tag props cs cont pos =>
        have hsz : sizeOf cs < N := by
          have := Node.element.sizeOf_spec tag props cs cont pos; omega
        have hctsz : sizeOf cont < N := by
          have := Node.element.sizeOf_spec tag props cs cont pos; omega
        rw [oneSt_element] at h
        rcases hA : allSt cs 0 p (hSwitch s tag) with ⟨cs', rc⟩
        rw [hA] at h
        match rc with
        | Except.error e => simp at h
        | Except.ok cn =>
          dsimp only at h
          have hl := (IH (sizeOf cs) hsz).2.1 cs le_rfl 0 p (hSwitch s tag) cn (by rw [hA])
          by_cases ht : tag = "template"
          · rw [if_pos ht] at h
            rcases hT : templateSt cont (p ++ [Step.content]) (hSwitch s tag) with ⟨cont', rt⟩
            rw [hT] at h
            match rt with
            | Except.error e => simp at h
            | Except.ok fr =>
              have hfr := (IH (sizeOf cont) hctsz).2.2.2 cont le_rfl (p ++ [Step.content])
                (hSwitch s tag) fr (by rw [hT])
              have hr : setContent
                  (setChildNodes
                    (patch pos (P5.element tag tag (buildAttrs s props)
                      (nsMap (hSwitch s tag).space) P5List.nil OptP5.none
                      Option.none Option.none)) cn)
                  (OptP5.some fr) = r := by
                injection h with h1
                injection h1 with h2
              subst hr
              rw [setChildNodes_patch, setContent_patch]
              refine ⟨?_, ?_, ?_⟩
              · rw [parentOf_patch]; rfl
              · rw [parentsOk_patch]
                show parentsOk p Option.none
                  (P5.element tag tag (buildAttrs s props) (nsMap (hSwitch s tag).space)
                    cn (OptP5.some fr) Option.none Option.none) = true
                rw [parentsOk_element]
                simp [hl.1, parentsOkContent_some, hfr.1]
              · rw [corr_patch]
                show corr (Node.element tag props cs cont pos)
                  (P5.element tag tag (buildAttrs s props) (nsMap (hSwitch s tag).space)
                    cn (OptP5.some fr) Option.none Option.none) = true
                rw [corr_element_element]
                simp [hl.2, hfr.2]
          · rw [if_neg ht] at h
            have hr : setChildNodes
                (patch pos (P5.element tag tag (buildAttrs s props)
                  (nsMap (hSwitch s tag).space) P5List.nil OptP5.none
                  Option.none Option.none)) cn = r := by
              injection h with h1
              injection h1 with h2
            subst hr
            rw [setChildNodes_patch]
            refine ⟨?_, ?_, ?_⟩
            · rw [parentOf_patch]; rfl
            · rw [parentsOk_patch]
              show parentsOk p Option.none
                (P5.element tag tag (buildAttrs s props) (nsMap (hSwitch s tag).space)
                  cn OptP5.none Option.none Option.none) = true
              rw [parentsOk_element]
              simp [hl.1, parentsOkContent_none]
            · rw [corr_patch]
              show corr (Node.element tag props cs cont pos)
                (P5.element tag tag (buildAttrs s props) (nsMap (hSwitch s tag).space)
                  cn OptP5.none Option.none Option.none) = true
              rw [corr_element_element]
              simp [hl.2, corrContent_none]
      | Node.text v pos =>
        rw [oneSt_text] at h
        have hr : patch pos (P5.text v Option.none Option.none) = r := by
          injection h with h1
          injection h1 with h2
        subst hr
        refine ⟨?_, ?_, ?_⟩
        · rw [parentOf_patch]; rfl
        · rw [parentsOk_patch]; rfl
        · rw [corr_patch]
          show corr (Node.text v pos) (P5.text v Option.none Option.none) = true
          rw [corr_text_text]
          simp
      | Node.comment v pos =>
        rw [oneSt_comment] at h
        have hr : patch pos (P5.comment v Option.none Option.none) = r := by
          injection h with h1
          injection h1 with h2
        subst hr
        refine ⟨?_, ?_, ?_⟩
        · rw [parentOf_patch]; rfl
        · rw [parentsOk_patch]; rfl
        · rw [corr_patch]
          show corr (Node.comment v pos) (P5.comment v Option.none Option.none) = true
          rw [corr_comment_comment]
          simp
      | Node.doctype pos =>
        rw [oneSt_doctype] at h
        have hr : patch pos (P5.doctype "html" "" "" Option.none Option.none) = r := by
          injection h with h1
          injection h1 with h2
        subst hr
        refine ⟨?_, ?_, ?_⟩
        · rw [parentOf_patch]; rfl
        · rw [parentsOk_patch]; rfl
        · rw [corr_patch]; rfl
      | Node.other ty pos =>
        rw [oneSt_other] at h
        simp at h
    · intro cs hcs i pp s l h
      match cs with
      | NodeList.nil =>
        rw [allSt_nil] at h
        have hl : P5List.nil = l := by injection h
        subst hl
        exact ⟨rfl, rfl⟩
      | NodeList.cons c rest =>
        have hc : sizeOf c < N := by
          have := NodeList.cons.sizeOf_spec c rest; omega
        have hrsz : sizeOf rest < N := by
          have := NodeList.cons.sizeOf_spec c rest; omega
        rw [allSt_cons] at h
        rcases hone : oneSt c s (pp ++ [Step.child i]) with ⟨c', rc⟩
        rw [hone] at h
        match rc with
        | Except.error e => simp at h
        | Except.ok Option.none => simp at h
        | Except.ok (Option.some child) =>
          rcases hall : allSt rest (i + 1) pp s with ⟨rest', rr⟩
          rw [hall] at h
          match rr with
          | Except.error e => simp at h
          | Except.ok restL =>
            have h1 := (IH (sizeOf c) hc).1 c le_rfl s (pp ++ [Step.child i]) child
              (by rw [hone])
            have h2 := (IH (sizeOf rest) hrsz).2.1 rest le_rfl (i + 1) pp s restL
              (by rw [hall])
            have hl : P5List.cons (setParent child pp) restL = l := by
              injection h
            subst hl
            constructor
            · rw [parentsOkList_cons]
              simp [parentsOk_setParent child (pp ++ [Step.child i]) pp h1.2.1, h2.1]
            · rw [corrList_cons]
              simp [corr_setParent, h1.2.2, h2.2]
    · intro n hn sp s r h
      match n with
      | Node.root d cs pos =>
        have hsz : sizeOf cs < N := by
          have := Node.root.sizeOf_spec d cs pos; omega
        rw [fragmentSt_root] at h
        rcases hA : allSt cs 0 sp s with ⟨cs', rc⟩
        rw [hA] at h
        match rc with
        | Except.error e => simp at h
        | Except.ok cn =>
          have hl := (IH (sizeOf cs) hsz).2.1 cs le_rfl 0 sp s cn (by rw [hA])
          have hr : patch pos (setChildNodes
              (P5.documentFragment P5List.nil Option.none Option.none) cn) = r := by
            injection h with h1
          subst hr
          rw [patch_eq]
          rcases specLocation pos with _ | loc
          · refine ⟨rfl, ?_, cn, Option.none, rfl, hl.2⟩
            show parentsOk sp Option.none
              (P5.documentFragment cn Option.none Option.none) = true
            rw [parentsOk_fragment]
            simp [hl.1]
          · refine ⟨rfl, ?_, cn, Option.some loc, rfl, hl.2⟩
            show parentsOk sp Option.none
              (P5.documentFragment cn Option.none (Option.some loc)) = true
            rw [parentsOk_fragment]
            simp [hl.1]
      | Node.element t pr cs c pos =>
        have hsz : sizeOf cs < N := by
          have := Node.element.sizeOf_spec t pr cs c pos; omega
        rw [fragmentSt_element] at h
        rcases hA : allSt cs 0 sp s with ⟨cs', rc⟩
        rw [hA] at h
        match rc with
        | Except.error e => simp at h
        | Except.ok cn =>
          have hl := (IH (sizeOf cs) hsz).2.1 cs le_rfl 0 sp s cn (by rw [hA])
          have hr : patch pos (setChildNodes
              (P5.documentFragment P5List.nil Option.none Option.none) cn) = r := by
            injection h with h1
          subst hr
          rw [patch_eq]
          rcases specLocation pos with _ | loc
          · refine ⟨rfl, ?_, cn, Option.none, rfl, hl.2⟩
            show parentsOk sp Option.none
              (P5.documentFragment cn Option.none Option.none) = true
            rw [parentsOk_fragment]
            simp [hl.1]
          · refine ⟨rfl, ?_, cn, Option.some loc, rfl, hl.2⟩
            show parentsOk sp Option.none
              (P5.documentFragment cn Option.none (Option.some loc)) = true
            rw [parentsOk_fragment]
            simp [hl.1]
      | Node.text v pos =>
        rw [fragmentSt_text] at h
        have hr : patch pos (P5.documentFragment P5List.nil Option.none Option.none) = r := by
          injection h with h1
        subst hr
        rw [patch_eq]
        rcases specLocation pos with _ | loc
        · exact ⟨rfl, rfl, P5List.nil, Option.none, rfl, rfl⟩
        · exact ⟨rfl, rfl, P5List.nil, Option.some loc, rfl, rfl⟩
      | Node.comment v pos =>
        rw [fragmentSt_comment] at h
        have hr : patch pos (P5.documentFragment P5List.nil Option.none Option.none) = r := by
          injection h with h1
        subst hr
        rw [patch_eq]
        rcases specLocation pos with _ | loc
        · exact ⟨rfl, rfl, P5List.nil, Option.none, rfl, rfl⟩
        · exact ⟨rfl, rfl, P5List.nil, Option.some loc, rfl, rfl⟩
      | Node.doctype pos =>
        rw [fragmentSt_doctype] at h
        have hr : patch pos (P5.documentFragment P5List.nil Option.none Option.none) = r := by
          injection h with h1
        subst hr
        rw [patch_eq]
        rcases specLocation pos with _ | loc
        · exact ⟨rfl, rfl, P5List.nil, Option.none, rfl, rfl⟩
        · exact ⟨rfl, rfl, P5List.nil, Option.some loc, rfl, rfl⟩
      | Node.other ty pos =>
        rw [fragmentSt_other] at h
        have hr : patch pos (P5.documentFragment P5List.nil Option.none Option.none) = r := by
          injection h with h1
        subst hr
        rw [patch_eq]
        rcases specLocation pos with _ | loc
        · exact ⟨rfl, rfl, P5List.nil, Option.none, rfl, rfl⟩
        · exact ⟨rfl, rfl, P5List.nil, Option.some loc, rfl, rfl⟩
    · intro c hc cp s fr h
      match c with
      | OptNode.none =>
        rw [templateSt_none] at h
        simp at h
      | OptNode.some cn =>
        have hsz : sizeOf cn < N := by
          have := OptNode.some.sizeOf_spec cn; omega
        rw [templateSt_some] at h
        rcases hf : fragmentSt cn cp s with ⟨cn', rf⟩
        rw [hf] at h
        dsimp only at h
        have hfr := (IH (sizeOf cn) hsz).2.2.1 cn le_rfl cp s fr (by rw [hf]; exact h)
        rcases hfr with ⟨hp, hok, fcs, loc, hfrEq, hcorr⟩
        subst hfrEq
        refine ⟨hok, ?_⟩
        rw [corrContent_some_fragment]
        exact hcorr


/-- C1: for every successfully converted tree, every produced non-root
node's `parentNode` is the address of the produced node whose child-list
transformation created it (assigned in `all`, the sole assignment site),
the parent's `childNodes` holds each produced child at exactly the
ordinal position the corresponding source child held (so, identifying
produced nodes by their unique addresses, each child occurs exactly once,
in source order), and the top-level produced node's `parentNode` is
undefined. -/
theorem claim1_parent_links :
    ∀ (t : Node) (sp : Option String) (r : P5),
      toParse5 t sp = Except.ok (Option.some r) →
      parentOf r = Option.none ∧ parentsOk [] Option.none r = true ∧ corr t r = true := by
  intro t sp r h
  exact (convAux (sizeOf t)).1 t le_rfl _ [] r h

/-- Witness for C1 at a root with a text child and an element child. -/
theorem claim1_parent_links_witness :
    parentOf (P5.document "no-quirks"
        (P5List.cons (P5.text "a" (Option.some []) Option.none)
          (P5List.cons (P5.element "b" "b" [] (Option.some htmlURI) P5List.nil
            OptP5.none (Option.some []) Option.none) P5List.nil))
        Option.none Option.none) = Option.none
  ∧ parentsOk [] Option.none (P5.document "no-quirks"
        (P5List.cons (P5.text "a" (Option.some []) Option.none)
          (P5List.cons (P5.element "b" "b" [] (Option.some htmlURI) P5List.nil
            OptP5.none (Option.some []) Option.none) P5List.nil))
        Option.none Option.none) = true
  ∧ corr smallRootTree (P5.document "no-quirks"
        (P5List.cons (P5.text "a" (Option.some []) Option.none)
          (P5List.cons (P5.element "b" "b" [] (Option.some htmlURI) P5List.nil
            OptP5.none (Option.some []) Option.none) P5List.nil))
        Option.none Option.none) = true :=
  claim1_parent_links smallRootTree Option.none
    (P5.document "no-quirks"
      (P5List.cons (P5.text "a" (Option.some []) Option.none)
        (P5List.cons (P5.element "b" "b" [] (Option.some htmlURI) P5List.nil
          OptP5.none (Option.some []) Option.none) P5List.nil))
      Option.none Option.none) rfl

end ToP5
